import Mathlib

/-!
# Verification of the Botcoin miner agent core

Shallow embedding of the miner's core logic (selection policy, transport
error classification, exponential backoff, polling-loop stats updates,
request signing, key encoding, research-result formatting), translated from
the TypeScript sources:

* `src/agent/miner.ts` (`BotcoinMiner`): mining loop, hunt selection,
  stats accumulator;
* `src/api/client.ts` (`BotcoinApiClient`): error classification
  (`handleError`) and request signing (`signPayload`);
* `src/utils/sleep.ts` (`exponentialBackoff`);
* `src/crypto/keys.ts` (key encoding and signature wrappers);
* `src/research/engine.ts` (`ResearchEngine`).

JavaScript `number`s are modelled as rationals (`ℚ`); byte arrays
(`Uint8Array`) as `List Nat` with each entry `< 256`.
-/

namespace Botcoin

/-! ## Data model: work items ("hunts") -/

/-- A work item, from `Hunt` in `src/api/types.ts`
(`id`, `difficulty`, `reward`; the textual clue fields are irrelevant to
selection and omitted here). -/
structure Hunt where
  id : String
  difficulty : ℚ
  reward : ℚ
deriving DecidableEq, Repr

/-- Per-item score, from `BotcoinMiner.selectHunt`:
`hunt.reward / Math.max(hunt.difficulty, 1)`. -/
def score (h : Hunt) : ℚ := h.reward / max h.difficulty 1

/-- One insertion step of a stable descending sort keyed on `score`:
`x` is placed before the first element whose score is `≤ score x`.
This realizes the ES2019-stable `Array.prototype.sort` with comparator
`(a, b) => b.score - a.score` used in `BotcoinMiner.selectHunt`:
strictly larger scores first, ties keep input order. -/
def insertScored (x : Hunt) : List Hunt → List Hunt
  | [] => [x]
  | y :: ys => if score y ≤ score x then x :: y :: ys else y :: insertScored x ys

/-- Stable descending sort by `score` (model of
`scored.sort((a, b) => b.score - a.score)` in `BotcoinMiner.selectHunt`). -/
def sortByScoreDesc : List Hunt → List Hunt
  | [] => []
  | x :: xs => insertScored x (sortByScoreDesc xs)

/-- `BotcoinMiner.selectHunt`: sort descending by score and take the first
element (`scored[0].hunt`); `none` on the empty list, on which the source
would be undefined (the caller checks emptiness first). -/
def selectHunt (hunts : List Hunt) : Option Hunt := (sortByScoreDesc hunts).head?

/-- The two hunts of the spec's selection scenario:
`{id:"a", reward:10, difficulty:5}`. -/
def huntA : Hunt := { id := "a", difficulty := 5, reward := 10 }

/-- `{id:"b", reward:12, difficulty:3}` from the spec's selection scenario. -/
def huntB : Hunt := { id := "b", difficulty := 3, reward := 12 }

/-! ## Transport error classification (`BotcoinApiClient.handleError`) -/

/-- The outcome of an HTTP request as seen by the axios error interceptor:
either a response with a status code (and, for 429, an optional parsed
`retry-after` header), a timeout (`ECONNABORTED`), or a connection error. -/
inductive HttpOutcome where
  | httpStatus (code : Nat) (retryAfterHeader : Option Nat)
  | timeout
  | connError
deriving DecidableEq, Repr

/-- The errors `BotcoinApiClient.handleError` can throw, from
`src/utils/errors.ts`: `RateLimitError` (with its `retryAfter` field) and
`ApiError` (with its optional `statusCode` field; `statusCode` is
`undefined` for timeout/network errors). There is no further subclassing:
4xx and 5xx responses produce the same class. -/
inductive TransportError where
  | rateLimitError (retryAfter : Nat)
  | apiError (statusCode : Option Nat)
deriving DecidableEq, Repr

/-- The `name` property of the thrown error object (the JS class name),
set in the error constructors in `src/utils/errors.ts`. -/
def errName : TransportError → String
  | .rateLimitError _ => "RateLimitError"
  | .apiError _ => "ApiError"

/-- `BotcoinApiClient.handleError`: classify an HTTP outcome into a thrown
error. 429 → `RateLimitError(parseInt(retry-after) ?? 60)`; other 4xx →
`ApiError(status)`; 5xx → `ApiError(status)`; timeout / connection error
(and statuses below 400, which fall through every branch) →
`ApiError(undefined)`. -/
def handleError : HttpOutcome → TransportError
  | .httpStatus code retryAfterHeader =>
    if code = 429 then .rateLimitError (retryAfterHeader.getD 60)
    else if 400 ≤ code ∧ code < 500 then .apiError (some code)
    else if 500 ≤ code then .apiError (some code)
    else .apiError none
  | .timeout => .apiError none
  | .connError => .apiError none

/-- An error thrown out of a mining cycle: either a transport error from
`BotcoinApiClient` or a `ResearchError` from `ResearchEngine.solve`. -/
inductive ThrownError where
  | transport (e : TransportError)
  | research
deriving DecidableEq, Repr

/-- The `error instanceof RateLimitError` test in `BotcoinMiner.start`,
returning the error's `retryAfter` field when it passes. -/
def rateLimitOf : ThrownError → Option Nat
  | .transport (.rateLimitError r) => some r
  | _ => none

/-! ## Exponential backoff (`src/utils/sleep.ts`) -/

/-- `exponentialBackoff(attempt, baseDelay = 1000, maxDelay = 30000)`:
`Math.min(baseDelay * 2^attempt, maxDelay) + Math.random() * 1000`.
The random jitter is passed in explicitly as `jitter` (the caller's model
quantifies over `0 ≤ jitter < 1000`). Note the cap applies to the delay
before the jitter is added. -/
def exponentialBackoff (attempt : Nat) (baseDelay maxDelay : ℚ) (jitter : ℚ) : ℚ :=
  min (baseDelay * 2 ^ attempt) maxDelay + jitter

/-- The backoff formula as the spec words it (claim C4):
`base * 2^min(consecutiveErrors, 5)` plus jitter of at most one second,
capped at 30 seconds — for comparison with the code's behavior. -/
def specClaimBackoff (consecutiveErrors : Nat) (jitter : ℚ) : ℚ :=
  min (1000 * 2 ^ min consecutiveErrors 5 + jitter) 30000

/-! ## Stats accumulator and mining-cycle state machine -/

/-- `AgentStats` from `src/agent/types.ts` (the wall-clock fields
`startTime`/`uptime` are real time and not modelled). -/
structure Stats where
  totalHuntsAttempted : Nat
  totalHuntsSolved : Nat
  totalRewards : ℚ
  totalErrors : Nat
  currentStreak : Nat
deriving DecidableEq, Repr

/-- The zero-initialized stats from the `BotcoinMiner` constructor. -/
def initialStats : Stats :=
  { totalHuntsAttempted := 0, totalHuntsSolved := 0, totalRewards := 0
    totalErrors := 0, currentStreak := 0 }

/-- The response of `POST /api/hunts/solve` (`SolveHuntResponse` in
`src/api/types.ts`): `correct`, optional `reward`, optional
`attemptsRemaining`. -/
structure SolveResp where
  correct : Bool
  reward : Option ℚ
  attemptsRemaining : Option Nat
deriving DecidableEq, Repr

/-- What one iteration of the retry loop in `BotcoinMiner.solveHunt`
observes: `researchEngine.solve` throws, or `apiClient.solveHunt` throws a
transport error, or the latter returns a response. -/
inductive AttemptOutcome where
  | researchThrow
  | submitThrow (e : TransportError)
  | response (r : SolveResp)
deriving DecidableEq, Repr

/-- How `BotcoinMiner.solveHunt` ends: the hunt was solved, it ended
unsolved (wrong with `attemptsRemaining === 0`, or the retry budget ran
out), or an error escaped from the final attempt. -/
inductive SolveEnd where
  | solved
  | unsolved
  | escaped (e : ThrownError)
deriving DecidableEq, Repr

/-- The body of the `for` loop in `BotcoinMiner.solveHunt`, from attempt
index `attempt` up to `maxRetries`. On a thrown error at the final attempt
the streak is zeroed and the error rethrown; on `correct` the solved
counter, reward total and streak are updated; on
`attemptsRemaining === 0` the streak is zeroed; otherwise the next attempt
runs (the intra-attempt sleeps do not affect stats). After the loop the
streak is zeroed. -/
def solveHuntGo (maxRetries : Nat) (att : Nat → AttemptOutcome) :
    Nat → Stats → Stats × SolveEnd
  | attempt, s =>
    if _h : attempt < maxRetries then
      match att attempt with
      | .researchThrow =>
        if attempt = maxRetries - 1 then
          ({ s with currentStreak := 0 }, .escaped .research)
        else solveHuntGo maxRetries att (attempt + 1) s
      | .submitThrow e =>
        if attempt = maxRetries - 1 then
          ({ s with currentStreak := 0 }, .escaped (.transport e))
        else solveHuntGo maxRetries att (attempt + 1) s
      | .response r =>
        if r.correct then
          ({ s with totalHuntsSolved := s.totalHuntsSolved + 1,
                    totalRewards := s.totalRewards + r.reward.getD 0,
                    currentStreak := s.currentStreak + 1 }, .solved)
        else if r.attemptsRemaining = some 0 then
          ({ s with currentStreak := 0 }, .unsolved)
        else solveHuntGo maxRetries att (attempt + 1) s
    else ({ s with currentStreak := 0 }, .unsolved)
  termination_by attempt _ => maxRetries - attempt
  decreasing_by all_goals omega

/-- `BotcoinMiner.solveHunt`: increments `totalHuntsAttempted` and runs the
retry loop from attempt 0. -/
def solveHunt (maxRetries : Nat) (att : Nat → AttemptOutcome) (s : Stats) :
    Stats × SolveEnd :=
  solveHuntGo maxRetries att 0
    { s with totalHuntsAttempted := s.totalHuntsAttempted + 1 }

/-- The environment one `miningCycle` call runs against: the result of
`getHunts`, the `success` flag of `pickHunt` (or a thrown error), and the
outcome of each solve attempt. (`checkStatus` and `attemptClaim` swallow
their own errors and never touch stats, so they need no model here.) -/
structure CycleEnv where
  huntsResult : Except ThrownError (List Hunt)
  pickResult : Except ThrownError Bool
  attempts : Nat → AttemptOutcome

/-- The API calls a cycle issues that matter to the claims: listing hunts,
picking a hunt by id, and submitting at least one answer for it. -/
inductive MCall where
  | listHunts
  | pick (huntId : String)
  | submitAnswer (huntId : String)
deriving DecidableEq, Repr

/-- Where a cycle ended, for stating invariants: no hunts available, the
pick was rejected (`success: false`), `solveHunt` ran and ended as `e`, or
an error was thrown before `solveHunt` started. -/
inductive CycleRes where
  | noWork
  | pickRejected
  | ranSolve (e : SolveEnd)
  | aborted (e : ThrownError)
deriving DecidableEq, Repr

/-- The error escaping a cycle, if any: thrown before `solveHunt`, or
rethrown out of `solveHunt`'s final attempt. -/
def escapedOf : CycleRes → Option ThrownError
  | .aborted e => some e
  | .ranSolve (.escaped e) => some e
  | _ => none

/-- `BotcoinMiner.miningCycle`: fetch hunts (return silently when none),
select the best hunt, pick it (return silently on rejection, with no stats
mutation at all), then solve it. Returns the updated stats, how the cycle
ended, and the calls issued. -/
def miningCycle (maxRetries : Nat) (s : Stats) (env : CycleEnv) :
    Stats × CycleRes × List MCall :=
  match env.huntsResult with
  | .error e => (s, .aborted e, [])
  | .ok hunts =>
    match selectHunt hunts with
    | none => (s, .noWork, [.listHunts])
    | some hunt =>
      match env.pickResult with
      | .error e => (s, .aborted e, [.listHunts, .pick hunt.id])
      | .ok success =>
        if !success then (s, .pickRejected, [.listHunts, .pick hunt.id])
        else
          let (s', e) := solveHunt maxRetries env.attempts s
          (s', .ranSolve e, [.listHunts, .pick hunt.id, .submitAnswer hunt.id])

/-- Loop configuration (`MinerConfig`): the inter-cycle sleep and the
retry budget. -/
structure MinerCfg where
  miningInterval : ℚ
  maxRetries : Nat
deriving Repr

/-- One iteration of the `while` loop in `BotcoinMiner.start`: run a cycle;
on normal return sleep `miningInterval` ms; on a thrown error increment
`totalErrors`, then — `error instanceof RateLimitError` — sleep
`(error.retryAfter || 60) * 1000` ms (note JS `||`: a zero `retryAfter`
falls back to 60), otherwise sleep
`exponentialBackoff(Math.min(totalErrors, 5))` ms. Returns the new stats
and the milliseconds slept before the next cycle. -/
def startStep (cfg : MinerCfg) (s : Stats) (env : CycleEnv) (jitter : ℚ) :
    Stats × ℚ :=
  let (s', res, _) := miningCycle cfg.maxRetries s env
  match escapedOf res with
  | none => (s', cfg.miningInterval)
  | some e =>
    let s2 := { s' with totalErrors := s'.totalErrors + 1 }
    match rateLimitOf e with
    | some r => (s2, ((if r = 0 then 60 else r) : ℚ) * 1000)
    | none => (s2, exponentialBackoff (min s2.totalErrors 5) 1000 30000 jitter)

/-- Several iterations of `BotcoinMiner.start`, one environment and one
jitter sample per cycle; returns the final stats and the sleep durations. -/
def runLoop (cfg : MinerCfg) : Stats → List (CycleEnv × ℚ) → Stats × List ℚ
  | s, [] => (s, [])
  | s, (env, j) :: rest =>
    let (s', d) := startStep cfg s env j
    let (s'', ds) := runLoop cfg s' rest
    (s'', d :: ds)

/-! ### Concrete cycle environments for witnesses and counterexamples -/

/-- A cycle whose `getHunts` call throws the given error. -/
def errEnv (e : ThrownError) : CycleEnv :=
  { huntsResult := .error e, pickResult := .ok true
    attempts := fun _ => .response { correct := true, reward := none, attemptsRemaining := none } }

/-- A cycle that solves `huntA` on the first attempt for a reward of 10. -/
def okEnv : CycleEnv :=
  { huntsResult := .ok [huntA], pickResult := .ok true
    attempts := fun _ => .response { correct := true, reward := some 10, attemptsRemaining := none } }

/-- A cycle whose pick is rejected (`success: false`). -/
def pickRejectedEnv : CycleEnv :=
  { huntsResult := .ok [huntA], pickResult := .ok false
    attempts := fun _ => .response { correct := true, reward := some 10, attemptsRemaining := none } }

/-! ## Crypto: keys and signatures (`src/crypto/keys.ts`)

`Uint8Array`s are modelled as `List Nat` with entries below 256. -/

/-- A byte array (`Uint8Array`): a list of naturals, each below 256. -/
abbrev Bytes := List Nat

/-- Every entry of the byte list is an actual byte. -/
def ValidBytes (bs : Bytes) : Prop := ∀ b ∈ bs, b < 256

instance : DecidablePred ValidBytes := fun bs =>
  inferInstanceAs (Decidable (∀ b ∈ bs, b < 256))

/-- `Keypair` from `src/crypto/keys.ts`. -/
structure Keypair where
  publicKey : Bytes
  secretKey : Bytes
deriving DecidableEq, Repr

/-- A well-formed Ed25519 keypair: 64-byte secret key, 32-byte public key,
the public key being the second half of the secret key (the layout
`nacl.sign.keyPair` produces), and all entries actual bytes. -/
def Keypair.Valid (kp : Keypair) : Prop :=
  kp.secretKey.length = 64 ∧ kp.publicKey.length = 32 ∧
    kp.publicKey = kp.secretKey.drop 32 ∧ ValidBytes kp.secretKey

instance : DecidablePred Keypair.Valid := fun kp =>
  inferInstanceAs (Decidable (kp.secretKey.length = 64 ∧ _ ∧ _ ∧ _))

/-- Modelled from the spec: the Ed25519 primitive (`nacl.sign.detached` /
`nacl.sign.detached.verify` from the tweetnacl library) is not part of this
repository's sources. Per spec §4.1/§8 the primitive is a deterministic
signature over the message for which verification succeeds exactly on the
unmodified signature; it is modelled as a deterministic 64-byte digest of
the message and the (derived) public key. -/
def naclRawSign (msg pk : Bytes) : Bytes :=
  let seed := (msg ++ pk).foldl (fun a b => (a * 257 + b + 1) % 65521) 7
  (List.range 64).map (fun i => (seed + 131 * i) % 256)

/-- Modelled from the spec: `nacl.sign.detached(message, secretKey)` —
signs using the secret key, whose second half is the public key. -/
def naclSignDetached (msg sk : Bytes) : Bytes := naclRawSign msg (sk.drop 32)

/-- Modelled from the spec: `nacl.sign.detached.verify`, true exactly on
the signature `nacl.sign.detached` produces for this message and key. -/
def naclVerifyDetached (msg sig pk : Bytes) : Bool := sig == naclRawSign msg pk

/-- UTF-8 encoding of a string (`new TextEncoder().encode(message)` in
`signMessage`/`verifySignature`). -/
def utf8Encode (s : String) : Bytes := s.toUTF8.toList.map (fun b => b.toNat)

/-- `signMessage` from `src/crypto/keys.ts` on a string message: UTF-8
encode, then `nacl.sign.detached`. -/
def signMessage (message : String) (secretKey : Bytes) : Bytes :=
  naclSignDetached (utf8Encode message) secretKey

/-- `verifySignature` from `src/crypto/keys.ts` on a string message. -/
def verifySignature (message : String) (signature publicKey : Bytes) : Bool :=
  naclVerifyDetached (utf8Encode message) signature publicKey

/-- Flip bit `bitIdx` of the byte at `byteIdx`. -/
def flipBit (byteIdx bitIdx : Nat) (bs : Bytes) : Bytes :=
  bs.set byteIdx (bs.getD byteIdx 0 ^^^ 2 ^ bitIdx)

/-! ## Base64 and keypair import/export (`src/crypto/keys.ts`)

`uint8ArrayToBase64`/`base64ToUint8Array` delegate to Node's `Buffer`,
which is not part of this repository's sources; modelled from the spec as
standard (RFC 4648) base64 with `=` padding. -/

/-- The standard base64 alphabet. -/
def b64Alphabet : List Char :=
  ("ABCDEFGHIJKLMNOPQRSTUVWXYZabcdefghijklmnopqrstuvwxyz0123456789+/").toList

/-- Character for a six-bit value. -/
def b64Char (n : Nat) : Char := b64Alphabet.getD n '='

/-- Six-bit value of an alphabet character. -/
def b64Index (c : Char) : Nat := b64Alphabet.indexOf c

/-- Modelled from the spec: base64 encoding
(`Buffer.from(bytes).toString('base64')`), three bytes at a time, with
`=` padding on a trailing one- or two-byte group. -/
def b64Encode : Bytes → List Char
  | [] => []
  | [a] => [b64Char (a / 4), b64Char (a % 4 * 16), '=', '=']
  | [a, b] => [b64Char (a / 4), b64Char (a % 4 * 16 + b / 16), b64Char (b % 16 * 4), '=']
  | a :: b :: c :: rest =>
    b64Char (a / 4) :: b64Char (a % 4 * 16 + b / 16) ::
      b64Char (b % 16 * 4 + c / 64) :: b64Char (c % 64) :: b64Encode rest

/-- Modelled from the spec: base64 decoding
(`Buffer.from(base64, 'base64')`), four characters at a time, honouring
`=` padding. -/
def b64Decode : List Char → Bytes
  | c1 :: c2 :: c3 :: c4 :: rest =>
    let s1 := b64Index c1
    let s2 := b64Index c2
    if c3 = '=' then [s1 * 4 + s2 / 16]
    else
      let s3 := b64Index c3
      if c4 = '=' then [s1 * 4 + s2 / 16, s2 % 16 * 16 + s3 / 4]
      else
        let s4 := b64Index c4
        (s1 * 4 + s2 / 16) :: (s2 % 16 * 16 + s3 / 4) :: (s3 % 4 * 64 + s4) :: b64Decode rest
  | _ => []

/-- `uint8ArrayToBase64` from `src/crypto/keys.ts`. -/
def uint8ArrayToBase64 (bytes : Bytes) : String := ⟨b64Encode bytes⟩

/-- `base64ToUint8Array` from `src/crypto/keys.ts`. -/
def base64ToUint8Array (base64 : String) : Bytes := b64Decode base64.data

/-- `CryptoError` from `src/utils/errors.ts`. -/
structure CryptoError where
  message : String
deriving DecidableEq, Repr

/-- The result object of `exportKeypair`. -/
structure ExportedKeypair where
  privateKey : String
  publicKey : String
deriving DecidableEq, Repr

/-- `exportKeypair` from `src/crypto/keys.ts`: base64-encode both keys. -/
def exportKeypair (keypair : Keypair) : ExportedKeypair :=
  { privateKey := uint8ArrayToBase64 keypair.secretKey
    publicKey := uint8ArrayToBase64 keypair.publicKey }

/-- `loadKeypair` from `src/crypto/keys.ts`: decode both base64 strings
and validate the key sizes (64-byte secret key, 32-byte public key),
throwing `CryptoError` otherwise. -/
def loadKeypair (privateKeyBase64 publicKeyBase64 : String) :
    Except CryptoError Keypair :=
  let secretKey := base64ToUint8Array privateKeyBase64
  let publicKey := base64ToUint8Array publicKeyBase64
  if secretKey.length ≠ 64 then
    .error ⟨"Invalid private key length: expected 64 bytes"⟩
  else if publicKey.length ≠ 32 then
    .error ⟨"Invalid public key length: expected 32 bytes"⟩
  else .ok { secretKey := secretKey, publicKey := publicKey }

/-! ## Request signing (`BotcoinApiClient.signPayload`) -/

/-- A JSON object payload: ordered association list of string fields (all
payloads the client sends carry string values). Field order is insertion
order, which `JSON.stringify` preserves. -/
abbrev Payload := List (String × String)

/-- One hexadecimal digit. -/
def hexDigit (n : Nat) : Char := (("0123456789abcdef").toList).getD n '0'

/-- Escaping of one character inside a JSON string literal, as
`JSON.stringify` does it. -/
def jsonEscapeChar (c : Char) : String :=
  if c = '"' then "\\\""
  else if c = '\\' then "\\\\"
  else if c = '\n' then "\\n"
  else if c = '\r' then "\\r"
  else if c = '\t' then "\\t"
  else if c.toNat = 8 then "\\b"
  else if c.toNat = 12 then "\\f"
  else if c.toNat < 32 then
    "\\u00" ++ String.mk [hexDigit (c.toNat / 16), hexDigit (c.toNat % 16)]
  else String.mk [c]

/-- A JSON string literal. -/
def jsonStr (s : String) : String :=
  "\"" ++ String.join (s.data.map jsonEscapeChar) ++ "\""

/-- `JSON.stringify` of a flat string-valued object, fields in insertion
order, no whitespace. -/
def jsonStringify (p : Payload) : String :=
  "\x7b" ++ String.intercalate "," (p.map (fun kv => jsonStr kv.1 ++ ":" ++ jsonStr kv.2)) ++ "\x7d"

/-- One field of a JS object-spread result `{...p, k: v}`: if `k` is
already a field its value is overwritten in place, otherwise the field is
appended. -/
def setField : Payload → String → String → Payload
  | [], k, v => [(k, v)]
  | (k', v') :: rest, k, v =>
    if k' = k then (k, v) :: rest else (k', v') :: setField rest k v

/-- The field names of a payload. -/
def fieldNames (p : Payload) : List String := p.map (fun kv => kv.1)

/-- `BotcoinApiClient.signPayload`: base64 the public key, sign
`JSON.stringify(payload)` with the secret key, and return
`{...payload, publicKey, signature}`. -/
def signPayload (kp : Keypair) (payload : Payload) : Payload :=
  let publicKeyBase64 := uint8ArrayToBase64 kp.publicKey
  let message := jsonStringify payload
  let signature := signMessage message kp.secretKey
  let signatureBase64 := uint8ArrayToBase64 signature
  setField (setField payload "publicKey" publicKeyBase64) "signature" signatureBase64

/-- The message the spec's words say the signature covers (claim C6): the
JSON serialization of the payload fields excluding `publicKey` and
`signature` themselves — for comparison with the code's behavior. -/
def specClaimSignedMessage (p : Payload) : String :=
  jsonStringify (p.filter (fun kv => !(kv.1 == "publicKey" || kv.1 == "signature")))

/-- The logical payload of `BotcoinApiClient.register`: note it contains
`publicKey` itself. -/
def registerPayload (kp : Keypair) (solution : String) : Payload :=
  [("publicKey", uint8ArrayToBase64 kp.publicKey), ("solution", solution)]

/-- The request body `BotcoinApiClient.register` sends. -/
def registerRequest (kp : Keypair) (solution : String) : Payload :=
  signPayload kp (registerPayload kp solution)

/-- The logical payload of `BotcoinApiClient.pickHunt` (claim-work). -/
def pickHuntPayload (huntId : String) : Payload := [("huntId", huntId)]

/-- The request body `BotcoinApiClient.pickHunt` sends. -/
def pickHuntRequest (kp : Keypair) (huntId : String) : Payload :=
  signPayload kp (pickHuntPayload huntId)

/-- The logical payload of `BotcoinApiClient.solveHunt` (submit-answer). -/
def solveHuntPayload (huntId answer : String) : Payload :=
  [("huntId", huntId), ("answer", answer)]

/-- The request body `BotcoinApiClient.solveHunt` sends. -/
def solveHuntRequest (kp : Keypair) (huntId answer : String) : Payload :=
  signPayload kp (solveHuntPayload huntId answer)

/-- The logical payload of `BotcoinApiClient.linkWallet`. -/
def linkWalletPayload (baseAddress : String) : Payload := [("baseAddress", baseAddress)]

/-- The request body `BotcoinApiClient.linkWallet` sends. -/
def linkWalletRequest (kp : Keypair) (baseAddress : String) : Payload :=
  signPayload kp (linkWalletPayload baseAddress)

/-- The logical payload of `BotcoinApiClient.claimOnchain` (settle-reward):
the empty object. -/
def claimOnchainPayload : Payload := []

/-- The request body `BotcoinApiClient.claimOnchain` sends. -/
def claimOnchainRequest (kp : Keypair) : Payload :=
  signPayload kp claimOnchainPayload

/-- Read-only `GET /api/hunts`: no body, no signature. -/
def getHuntsRequest : Payload := []

/-- Read-only `GET /api/register/challenge`: no body, no signature. -/
def getChallengeRequest : Payload := []

/-- Read-only `GET /api/gas?publicKey=...`: the only datum sent is the
public key, unsigned. -/
def getGasRequest (kp : Keypair) : Payload :=
  [("publicKey", uint8ArrayToBase64 kp.publicKey)]

/-- Read-only `GET /api/balance/:publicKey`: the only datum sent is the
public key, unsigned. -/
def getBalanceRequest (kp : Keypair) : Payload :=
  [("publicKey", uint8ArrayToBase64 kp.publicKey)]

/-! ## Research engine (`src/research/engine.ts`) -/

/-- `ResearchResult` from `src/research/types.ts`. -/
structure ResearchResult where
  answer : String
  confidence : ℚ
  reasoning : String
  sources : List String
deriving DecidableEq, Repr

/-- `ResearchEngine.formatAnswer`: `answer.trim().toLowerCase()`. -/
def formatAnswer (answer : String) : String := answer.trim.toLower

/-- `ResearchEngine.solve` on its success path: the raw candidate answer
produced by `applySolvingStrategy` (regex heuristics over the extracted
clues, opaque to the result's shape) is abstracted as the `rawAnswer`
argument; the result is the formatted answer with confidence 0.7 and a
reasoning string mentioning the difficulty. -/
def solveResult (difficulty : ℚ) (rawAnswer : String) : ResearchResult :=
  { answer := formatAnswer rawAnswer
    confidence := 7 / 10
    reasoning := "Applied strategy for difficulty " ++ toString difficulty
    sources := [] }

/-- `ResearchEngine.shouldSubmit`: `result.confidence >= threshold`. -/
def shouldSubmit (result : ResearchResult) (threshold : ℚ) : Bool :=
  threshold ≤ result.confidence

/-- The default confidence threshold 0.6 (`shouldSubmit`'s default
parameter, also `minConfidenceThreshold` in the miner's config). -/
def defaultConfidenceThreshold : ℚ := 6 / 10

/-! ## Concrete fixtures for witnesses and counterexamples -/

/-- A concrete loop configuration: 10-second interval, 3 retries. -/
def cfg0 : MinerCfg := { miningInterval := 10000, maxRetries := 3 }

/-- A cycle aborted by a `ServerFailure` (HTTP 500) from `getHunts`. -/
def serverFailureEnv : CycleEnv :=
  errEnv (.transport (handleError (.httpStatus 500 none)))

/-- A cycle aborted by a `ClientRejected` (HTTP 400) from `getHunts`. -/
def clientErrorEnv : CycleEnv :=
  errEnv (.transport (handleError (.httpStatus 400 none)))

/-- A concrete well-formed keypair: secret key bytes `0..63`, public key
its second half. -/
def kpW : Keypair :=
  { publicKey := (List.range 64).drop 32, secretKey := List.range 64 }

end Botcoin

namespace Botcoin

/-! ## Lemmas about the selection policy -/

theorem head_insertScored (x : Hunt) (l : List Hunt) :
    (insertScored x l).head? =
      some (match l.head? with
            | none => x
            | some y => if score y ≤ score x then x else y) := by
  cases l with
  | nil => rfl
  | cons y ys =>
    simp only [insertScored]
    split <;> rename_i hc <;> simp [hc]

theorem selectHunt_cons (x : Hunt) (xs : List Hunt) :
    selectHunt (x :: xs) =
      some (match selectHunt xs with
            | none => x
            | some b => if score b ≤ score x then x else b) := by
  simp only [selectHunt, sortByScoreDesc, head_insertScored]

/-- Helper: the selected hunt is the earliest input element of maximal
score: the list splits as `l1 ++ best :: l2` with every element scoring
`≤ best` and everything strictly before `best` scoring strictly less. -/
theorem selectHunt_first_max_aux (hunts : List Hunt) (hne : hunts ≠ []) :
    ∃ l1 best l2, hunts = l1 ++ best :: l2 ∧
      selectHunt hunts = some best ∧
      (∀ h ∈ hunts, score h ≤ score best) ∧
      (∀ h ∈ l1, score h < score best) := by
  induction hunts with
  | nil => exact absurd rfl hne
  | cons x xs ih =>
    cases xs with
    | nil =>
      refine ⟨[], x, [], by simp, ?_, by simp, by simp⟩
      simp [selectHunt, sortByScoreDesc, insertScored]
    | cons y ys =>
      obtain ⟨l1, b, l2, hsplit, hsel, hmax, hfront⟩ := ih (by simp)
      rw [selectHunt_cons, hsel]
      by_cases hle : score b ≤ score x
      · refine ⟨[], x, y :: ys, by simp, by simp [hle], ?_, by simp⟩
        intro h hh
        rcases List.mem_cons.mp hh with rfl | hh
        · exact le_refl _
        · exact le_trans (hmax h hh) hle
      · push_neg at hle
        refine ⟨x :: l1, b, l2, by rw [hsplit]; simp, by simp [not_le.mpr hle], ?_, ?_⟩
        · intro h hh
          rcases List.mem_cons.mp hh with rfl | hh
          · exact le_of_lt hle
          · exact hmax h hh
        · intro h hh
          rcases List.mem_cons.mp hh with rfl | hh
          · exact hle
          · exact hfront h hh

/-- C1: for every non-empty list of work items, `selectHunt` returns a
member of the list whose score `reward / max(difficulty, 1)` is `≥` the
score of every item in the list, and every item strictly before it in
input order scores strictly less (earliest-position tie-break); in
particular, on `[{id:"a", reward:10, difficulty:5},
{id:"b", reward:12, difficulty:3}]` it returns the item with id `"b"`. -/
theorem selectHunt_spec :
    (∀ hunts : List Hunt, hunts ≠ [] →
      ∃ l1 best l2, hunts = l1 ++ best :: l2 ∧
        selectHunt hunts = some best ∧
        (∀ h ∈ hunts, score h ≤ score best) ∧
        (∀ h ∈ l1, score h < score best)) ∧
    selectHunt [huntA, huntB] = some huntB :=
  ⟨selectHunt_first_max_aux, by
    norm_num [selectHunt, sortByScoreDesc, insertScored, score, huntA, huntB, max_def]⟩

/-- Witness for C1 at the spec's scenario list. -/
theorem selectHunt_spec_witness :
    ([huntA, huntB] ≠ []) ∧
    (∃ l1 best l2, [huntA, huntB] = l1 ++ best :: l2 ∧
      selectHunt [huntA, huntB] = some best ∧
      (∀ h ∈ [huntA, huntB], score h ≤ score best) ∧
      (∀ h ∈ l1, score h < score best)) :=
  ⟨by decide, selectHunt_spec.1 [huntA, huntB] (by decide)⟩

/-- C10: `ResearchEngine.solve` on its success path returns the trimmed,
lowercased raw candidate answer with confidence exactly 0.7, so
`shouldSubmit` at the default threshold 0.6 is always true and the
low-confidence warning never suppresses a submission. -/
theorem research_confidence_spec (difficulty : ℚ) (rawAnswer : String) :
    (solveResult difficulty rawAnswer).answer = rawAnswer.trim.toLower ∧
    (solveResult difficulty rawAnswer).confidence = 0.7 ∧
    shouldSubmit (solveResult difficulty rawAnswer) defaultConfidenceThreshold = true ∧
    defaultConfidenceThreshold = 0.6 := by
  refine ⟨rfl, ?_, ?_, ?_⟩
  · show (7 : ℚ) / 10 = 0.7
    norm_num
  · show decide ((6 : ℚ) / 10 ≤ 7 / 10) = true
    norm_num
  · show (6 : ℚ) / 10 = 0.6
    norm_num

/-! ## Lemmas about the mining cycle and stats accumulator -/

/-- Step equation: retry budget exhausted — the streak is zeroed. -/
theorem solveHuntGo_stop (m : Nat) (att : Nat → AttemptOutcome) (k : Nat)
    (s : Stats) (hk : ¬ k < m) :
    solveHuntGo m att k s = ({ s with currentStreak := 0 }, .unsolved) := by
  rw [solveHuntGo]
  simp [hk]

/-- Step equation: a throw on the final attempt escapes with the streak
zeroed. -/
theorem solveHuntGo_throw_last (m : Nat) (att : Nat → AttemptOutcome)
    (k : Nat) (s : Stats) (hk : k < m) (hl : k = m - 1) (e : ThrownError)
    (hout : att k = .researchThrow ∧ e = .research ∨
      ∃ te, att k = .submitThrow te ∧ e = .transport te) :
    solveHuntGo m att k s = ({ s with currentStreak := 0 }, .escaped e) := by
  subst hl
  rw [solveHuntGo]
  rcases hout with ⟨hout, rfl⟩ | ⟨te, hout, rfl⟩ <;> simp [hk, hout]

/-- Step equation: a throw on a non-final attempt retries. -/
theorem solveHuntGo_throw_next (m : Nat) (att : Nat → AttemptOutcome)
    (k : Nat) (s : Stats) (hk : k < m) (hl : k ≠ m - 1)
    (hout : att k = .researchThrow ∨ ∃ te, att k = .submitThrow te) :
    solveHuntGo m att k s = solveHuntGo m att (k + 1) s := by
  rw [solveHuntGo]
  rcases hout with hout | ⟨te, hout⟩ <;> simp [hk, hout, hl]

/-- Step equation: a correct answer updates solved/reward/streak. -/
theorem solveHuntGo_correct (m : Nat) (att : Nat → AttemptOutcome)
    (k : Nat) (s : Stats) (hk : k < m) (r : SolveResp)
    (hout : att k = .response r) (hc : r.correct = true) :
    solveHuntGo m att k s =
      ({ s with totalHuntsSolved := s.totalHuntsSolved + 1,
                totalRewards := s.totalRewards + r.reward.getD 0,
                currentStreak := s.currentStreak + 1 }, .solved) := by
  rw [solveHuntGo]
  simp [hk, hout, hc]

/-- Step equation: a wrong answer with no attempts remaining ends the hunt
unsolved with the streak zeroed. -/
theorem solveHuntGo_wrong_out (m : Nat) (att : Nat → AttemptOutcome)
    (k : Nat) (s : Stats) (hk : k < m) (r : SolveResp)
    (hout : att k = .response r) (hc : r.correct = false)
    (hrem : r.attemptsRemaining = some 0) :
    solveHuntGo m att k s = ({ s with currentStreak := 0 }, .unsolved) := by
  rw [solveHuntGo]
  simp [hk, hout, hc, hrem]

/-- Step equation: a wrong answer with attempts remaining retries. -/
theorem solveHuntGo_wrong_next (m : Nat) (att : Nat → AttemptOutcome)
    (k : Nat) (s : Stats) (hk : k < m) (r : SolveResp)
    (hout : att k = .response r) (hc : r.correct = false)
    (hrem : r.attemptsRemaining ≠ some 0) :
    solveHuntGo m att k s = solveHuntGo m att (k + 1) s := by
  rw [solveHuntGo]
  simp [hk, hout, hc, hrem]

/-- Helper: `solveHunt`'s retry loop never touches `totalHuntsAttempted`
or `totalErrors`, never decreases `totalHuntsSolved` (nor `totalRewards`,
given non-negative rewards), and zeroes the streak whenever it does not
end `solved`. -/
theorem solveHuntGo_facts (m : Nat) (att : Nat → AttemptOutcome) :
    ∀ (f k : Nat) (s : Stats), m - k ≤ f →
    (solveHuntGo m att k s).1.totalHuntsAttempted = s.totalHuntsAttempted ∧
    (solveHuntGo m att k s).1.totalErrors = s.totalErrors ∧
    s.totalHuntsSolved ≤ (solveHuntGo m att k s).1.totalHuntsSolved ∧
    ((∀ n r, att n = .response r → 0 ≤ r.reward.getD 0) →
      s.totalRewards ≤ (solveHuntGo m att k s).1.totalRewards) ∧
    ((solveHuntGo m att k s).2 ≠ .solved →
      (solveHuntGo m att k s).1.currentStreak = 0) := by
  intro f
  induction f with
  | zero =>
    intro k s hf
    rw [solveHuntGo_stop m att k s (by omega)]
    simp
  | succ f ih =>
    intro k s hf
    by_cases hk : k < m
    · cases hout : att k with
      | researchThrow =>
        by_cases hl : k = m - 1
        · rw [solveHuntGo_throw_last m att k s hk hl .research (Or.inl ⟨hout, rfl⟩)]
          simp
        · rw [solveHuntGo_throw_next m att k s hk hl (Or.inl hout)]
          exact ih (k + 1) s (by omega)
      | submitThrow te =>
        by_cases hl : k = m - 1
        · rw [solveHuntGo_throw_last m att k s hk hl (.transport te)
            (Or.inr ⟨te, hout, rfl⟩)]
          simp
        · rw [solveHuntGo_throw_next m att k s hk hl (Or.inr ⟨te, hout⟩)]
          exact ih (k + 1) s (by omega)
      | response r =>
        by_cases hc : r.correct = true
        · rw [solveHuntGo_correct m att k s hk r hout hc]
          refine ⟨rfl, rfl, by simp, ?_, by simp⟩
          intro hr
          have h0 := hr k r hout
          simp only
          linarith
        · by_cases hrem : r.attemptsRemaining = some 0
          · rw [solveHuntGo_wrong_out m att k s hk r hout
              (Bool.not_eq_true _ ▸ hc) hrem]
            simp
          · rw [solveHuntGo_wrong_next m att k s hk r hout
              (Bool.not_eq_true _ ▸ hc) hrem]
            exact ih (k + 1) s (by omega)
    · rw [solveHuntGo_stop m att k s hk]
      simp

/-- Helper: the same facts for `solveHunt`, which additionally increments
`totalHuntsAttempted`. -/
theorem solveHunt_facts (m : Nat) (att : Nat → AttemptOutcome) (s : Stats) :
    (solveHunt m att s).1.totalHuntsAttempted = s.totalHuntsAttempted + 1 ∧
    (solveHunt m att s).1.totalErrors = s.totalErrors ∧
    s.totalHuntsSolved ≤ (solveHunt m att s).1.totalHuntsSolved ∧
    ((∀ n r, att n = .response r → 0 ≤ r.reward.getD 0) →
      s.totalRewards ≤ (solveHunt m att s).1.totalRewards) ∧
    ((solveHunt m att s).2 ≠ .solved →
      (solveHunt m att s).1.currentStreak = 0) := by
  have h := solveHuntGo_facts m att m 0
    { s with totalHuntsAttempted := s.totalHuntsAttempted + 1 } (by omega)
  exact h

/-- Helper: a cycle never touches `totalErrors`, never decreases the other
counters (rewards given non-negative rewards), leaves stats untouched on
an abort or a pick rejection, and zeroes the streak when `solveHunt` ran
and did not solve. -/
theorem miningCycle_facts (m : Nat) (s : Stats) (env : CycleEnv) :
    (miningCycle m s env).1.totalErrors = s.totalErrors ∧
    s.totalHuntsAttempted ≤ (miningCycle m s env).1.totalHuntsAttempted ∧
    s.totalHuntsSolved ≤ (miningCycle m s env).1.totalHuntsSolved ∧
    ((∀ n r, env.attempts n = .response r → 0 ≤ r.reward.getD 0) →
      s.totalRewards ≤ (miningCycle m s env).1.totalRewards) ∧
    (∀ e, (miningCycle m s env).2.1 = .aborted e → (miningCycle m s env).1 = s) ∧
    ((miningCycle m s env).2.1 = .pickRejected → (miningCycle m s env).1 = s) ∧
    (∀ e, (miningCycle m s env).2.1 = .ranSolve e → e ≠ .solved →
      (miningCycle m s env).1.currentStreak = 0) := by
  unfold miningCycle
  split
  · simp
  · split
    · simp
    · split
      · simp
      · split
        · simp
        · obtain ⟨h1, h2, h3, h4, h5⟩ := solveHunt_facts m env.attempts s
          refine ⟨h2, ?_, h3, h4, ?_, ?_, ?_⟩
          · rw [h1]; omega
          · intro e he; simp at he
          · intro he; simp at he
          · intro e he hne
            have hinj : (solveHunt m env.attempts s).2 = e := by
              injection he
            exact h5 (by rw [hinj]; exact hne)

/-- Helper: one loop iteration against a cycle whose `getHunts` throws
`e`: the error counter increments and the loop sleeps either the
rate-limit wait or the exponential backoff. -/
theorem startStep_errEnv (cfg : MinerCfg) (s : Stats) (j : ℚ) (e : ThrownError) :
    startStep cfg s (errEnv e) j =
      match rateLimitOf e with
      | some r => ({ s with totalErrors := s.totalErrors + 1 },
          ((if r = 0 then 60 else r) : ℚ) * 1000)
      | none => ({ s with totalErrors := s.totalErrors + 1 },
          exponentialBackoff (min (s.totalErrors + 1) 5) 1000 30000 j) := by
  unfold startStep miningCycle errEnv
  cases hrl : rateLimitOf e <;> simp [escapedOf, hrl]

/-- Helper: one loop iteration against `okEnv` solves the hunt on the
first attempt: attempted/solved/reward/streak all advance and the loop
sleeps the normal mining interval. -/
theorem startStep_okEnv (cfg : MinerCfg) (s : Stats) (j : ℚ)
    (hm : 0 < cfg.maxRetries) :
    startStep cfg s okEnv j =
      ({ s with totalHuntsAttempted := s.totalHuntsAttempted + 1,
                totalHuntsSolved := s.totalHuntsSolved + 1,
                totalRewards := s.totalRewards + 10,
                currentStreak := s.currentStreak + 1 }, cfg.miningInterval) := by
  have hsolve := solveHuntGo_correct cfg.maxRetries
    (fun _ => AttemptOutcome.response
      { correct := true, reward := some 10, attemptsRemaining := none }) 0
    { s with totalHuntsAttempted := s.totalHuntsAttempted + 1 } hm
    { correct := true, reward := some 10, attemptsRemaining := none } rfl rfl
  unfold startStep miningCycle
  simp only [okEnv, selectHunt, sortByScoreDesc, insertScored, solveHunt,
    List.head?, hsolve]
  simp [escapedOf]

/-- C2 counterexample: a cycle aborted by a thrown transport error (HTTP
500 from `getHunts`) increments `totalErrors` but leaves the streak at its
prior value 1 instead of resetting it to 0 as the claim states. -/
theorem streak_unreset_on_aborted_cycle :
    (startStep cfg0
        { totalHuntsAttempted := 1, totalHuntsSolved := 1, totalRewards := 10,
          totalErrors := 0, currentStreak := 1 } serverFailureEnv 0).1.totalErrors = 1 ∧
    (startStep cfg0
        { totalHuntsAttempted := 1, totalHuntsSolved := 1, totalRewards := 10,
          totalErrors := 0, currentStreak := 1 } serverFailureEnv 0).1.currentStreak = 1 ∧
    (1 : Nat) ≠ 0 := by
  rw [show serverFailureEnv = errEnv (.transport (handleError (.httpStatus 500 none))) from rfl,
    startStep_errEnv]
  refine ⟨?_, ?_, by omega⟩ <;> norm_num [handleError, rateLimitOf]

/-- C2 (amended): across every loop iteration the counters
`totalHuntsAttempted`, `totalHuntsSolved`, `totalRewards` (for
non-negative rewards) and `totalErrors` never decrease; the streak is
reset to 0 by every cycle that ran `solveHunt` without solving (attempts
exhausted, `attemptsRemaining === 0`, or a throw on the final solve
attempt), but a cycle aborted by an error thrown before `solveHunt`
(while fetching or picking) leaves the streak unchanged. -/
theorem stats_monotone_and_streak (cfg : MinerCfg) (s : Stats) (env : CycleEnv)
    (j : ℚ)
    (hr : ∀ n r, env.attempts n = .response r → 0 ≤ r.reward.getD 0) :
    s.totalHuntsAttempted ≤ (startStep cfg s env j).1.totalHuntsAttempted ∧
    s.totalHuntsSolved ≤ (startStep cfg s env j).1.totalHuntsSolved ∧
    s.totalRewards ≤ (startStep cfg s env j).1.totalRewards ∧
    s.totalErrors ≤ (startStep cfg s env j).1.totalErrors ∧
    (∀ e, (miningCycle cfg.maxRetries s env).2.1 = .ranSolve e → e ≠ .solved →
      (startStep cfg s env j).1.currentStreak = 0) ∧
    (∀ e, (miningCycle cfg.maxRetries s env).2.1 = .aborted e →
      (startStep cfg s env j).1.currentStreak = s.currentStreak) := by
  obtain ⟨f1, f2, f3, f4, f5, f6, f7⟩ := miningCycle_facts cfg.maxRetries s env
  rcases hmc : miningCycle cfg.maxRetries s env with ⟨s', res, trace⟩
  rw [hmc] at f1 f2 f3 f4 f5 f6 f7
  simp only [Prod.fst, Prod.snd] at f1 f2 f3 f4 f5 f6 f7
  have hstep : (startStep cfg s env j).1 =
      match escapedOf res with
      | none => s'
      | some _ => { s' with totalErrors := s'.totalErrors + 1 } := by
    unfold startStep
    rw [hmc]
    cases hesc : escapedOf res with
    | none => simp [hesc]
    | some e => cases e with
      | transport te => cases hte : rateLimitOf (.transport te) with
        | none => simp [hesc, hte]
        | some r => simp [hesc, hte]
      | research => simp [hesc, rateLimitOf]
  rw [hstep]
  have hrw := f4 hr
  cases hesc : escapedOf res <;>
    refine ⟨?_, ?_, ?_, ?_, ?_, ?_⟩ <;>
    simp only
  · exact f2
  · exact f3
  · exact hrw
  · omega
  · intro e he hne
    exact f7 e (by simpa using he) hne
  · intro e he
    rw [f5 e (by simpa using he)]
  · exact f2
  · exact f3
  · exact hrw
  · omega
  · intro e he hne
    exact f7 e (by simpa using he) hne
  · intro e he
    rw [f5 e (by simpa using he)]

/-- Witness for C2 at a solving cycle from the initial stats. -/
theorem stats_monotone_and_streak_witness :
    (∀ n r, okEnv.attempts n = .response r → 0 ≤ r.reward.getD 0) ∧
    (initialStats.totalHuntsAttempted ≤
        (startStep cfg0 initialStats okEnv 0).1.totalHuntsAttempted ∧
      initialStats.totalHuntsSolved ≤
        (startStep cfg0 initialStats okEnv 0).1.totalHuntsSolved ∧
      initialStats.totalRewards ≤
        (startStep cfg0 initialStats okEnv 0).1.totalRewards ∧
      initialStats.totalErrors ≤
        (startStep cfg0 initialStats okEnv 0).1.totalErrors ∧
      (∀ e, (miningCycle cfg0.maxRetries initialStats okEnv).2.1 = .ranSolve e →
        e ≠ .solved → (startStep cfg0 initialStats okEnv 0).1.currentStreak = 0) ∧
      (∀ e, (miningCycle cfg0.maxRetries initialStats okEnv).2.1 = .aborted e →
        (startStep cfg0 initialStats okEnv 0).1.currentStreak =
          initialStats.currentStreak)) := by
  have hr : ∀ n r, okEnv.attempts n = .response r → 0 ≤ r.reward.getD 0 := by
    intro n r h
    cases h
    norm_num
  exact ⟨hr, stats_monotone_and_streak cfg0 initialStats okEnv 0 hr⟩

/-- C8 counterexample: when the pick is rejected the cycle mutates no
stats field at all — in particular `totalErrors` stays 0, refuting the
claim that an error is recorded. -/
theorem pick_rejection_records_nothing :
    (miningCycle cfg0.maxRetries initialStats pickRejectedEnv).1 = initialStats ∧
    (miningCycle cfg0.maxRetries initialStats pickRejectedEnv).1.totalErrors = 0 ∧
    ¬ (miningCycle cfg0.maxRetries initialStats pickRejectedEnv).1.totalErrors =
        initialStats.totalErrors + 1 ∧
    MCall.submitAnswer huntA.id ∉
      (miningCycle cfg0.maxRetries initialStats pickRejectedEnv).2.2 := by
  have hmc : miningCycle cfg0.maxRetries initialStats pickRejectedEnv =
      (initialStats, .pickRejected, [.listHunts, .pick huntA.id]) := by
    unfold miningCycle
    simp [pickRejectedEnv, selectHunt, sortByScoreDesc, insertScored]
  rw [hmc]
  refine ⟨rfl, rfl, by simp [initialStats], by simp⟩

/-- C8 (amended): on a pick rejection (`success: false`) the cycle is
abandoned with no stats mutation whatsoever (not even an error record),
no submit-answer call is issued, and the loop sleeps the normal mining
interval before the next cycle. -/
theorem pick_rejection_frame (cfg : MinerCfg) (s : Stats) (env : CycleEnv)
    (j : ℚ) (hunts : List Hunt) (hunt : Hunt)
    (h1 : env.huntsResult = .ok hunts) (h2 : selectHunt hunts = some hunt)
    (h3 : env.pickResult = .ok false) :
    miningCycle cfg.maxRetries s env =
      (s, .pickRejected, [.listHunts, .pick hunt.id]) ∧
    (∀ hid, MCall.submitAnswer hid ∉ (miningCycle cfg.maxRetries s env).2.2) ∧
    startStep cfg s env j = (s, cfg.miningInterval) := by
  have hmc : miningCycle cfg.maxRetries s env =
      (s, .pickRejected, [.listHunts, .pick hunt.id]) := by
    unfold miningCycle
    rw [h1]
    simp [h2, h3]
  refine ⟨hmc, ?_, ?_⟩
  · intro hid
    rw [hmc]
    simp
  · unfold startStep
    rw [hmc]
    simp [escapedOf]

/-- Witness for C8 at the concrete rejected-pick environment. -/
theorem pick_rejection_frame_witness :
    (pickRejectedEnv.huntsResult = .ok [huntA] ∧
      selectHunt [huntA] = some huntA ∧
      pickRejectedEnv.pickResult = .ok false) ∧
    (miningCycle cfg0.maxRetries initialStats pickRejectedEnv =
        (initialStats, .pickRejected, [.listHunts, .pick huntA.id]) ∧
      (∀ hid, MCall.submitAnswer hid ∉
        (miningCycle cfg0.maxRetries initialStats pickRejectedEnv).2.2) ∧
      startStep cfg0 initialStats pickRejectedEnv 0 =
        (initialStats, cfg0.miningInterval)) :=
  ⟨⟨rfl, rfl, rfl⟩,
    pick_rejection_frame cfg0 initialStats pickRejectedEnv 0 [huntA] huntA
      rfl rfl rfl⟩

/-- C3 counterexample: a 400 response and a 500 response are thrown as the
same error class (`ApiError`), and the polling loop reacts to both
identically — it blindly retries the `ClientRejected` 400 with the same
exponential backoff (2000 ms here) instead of distinguishing it. -/
theorem fourxx_fivexx_same_class :
    errName (handleError (.httpStatus 400 none)) =
      errName (handleError (.httpStatus 500 none)) ∧
    startStep cfg0 initialStats clientErrorEnv 0 =
      startStep cfg0 initialStats serverFailureEnv 0 ∧
    (startStep cfg0 initialStats clientErrorEnv 0).2 = 2000 := by
  refine ⟨rfl, rfl, ?_⟩
  rw [show clientErrorEnv = errEnv (.transport (handleError (.httpStatus 400 none))) from rfl,
    startStep_errEnv]
  norm_num [handleError, rateLimitOf, exponentialBackoff, initialStats, min_def]

/-- C3 (amended): the transport classifies 429 as `RateLimitError`
(carrying the parsed retry-after, default 60) and every other failure —
4xx, 5xx, timeout, connection error — as the single class `ApiError`
(status code present for HTTP errors, absent for network errors); 4xx and
5xx are distinguishable only through the `statusCode` field, and the
polling loop treats any two such errors identically, retrying both with
the same backoff. -/
theorem handleError_taxonomy (h : Option Nat) (c1 c2 : Nat) (s : Stats)
    (j : ℚ) (cfg : MinerCfg)
    (h41 : 400 ≤ c1) (h42 : c1 < 500) (h43 : c1 ≠ 429) (h51 : 500 ≤ c2) :
    handleError (.httpStatus 429 h) = .rateLimitError (h.getD 60) ∧
    handleError (.httpStatus c1 h) = .apiError (some c1) ∧
    handleError (.httpStatus c2 h) = .apiError (some c2) ∧
    handleError .timeout = .apiError none ∧
    handleError .connError = .apiError none ∧
    errName (handleError (.httpStatus c1 h)) =
      errName (handleError (.httpStatus c2 h)) ∧
    startStep cfg s (errEnv (.transport (handleError (.httpStatus c1 h)))) j =
      startStep cfg s (errEnv (.transport (handleError (.httpStatus c2 h)))) j := by
  have hc1 : handleError (.httpStatus c1 h) = .apiError (some c1) := by
    simp only [handleError]
    rw [if_neg h43, if_pos ⟨h41, h42⟩]
  have hc2 : handleError (.httpStatus c2 h) = .apiError (some c2) := by
    simp only [handleError]
    rw [if_neg (by omega : ¬ c2 = 429), if_neg (by omega : ¬ (400 ≤ c2 ∧ c2 < 500)),
      if_pos h51]
  refine ⟨by simp [handleError], hc1, hc2, rfl, rfl, by rw [hc1, hc2]; rfl, ?_⟩
  rw [hc1, hc2, startStep_errEnv, startStep_errEnv]
  rfl

/-- Witness for C3 at 400 / 500. -/
theorem handleError_taxonomy_witness :
    ((400 : Nat) ≤ 400 ∧ (400 : Nat) < 500 ∧ (400 : Nat) ≠ 429 ∧ (500 : Nat) ≤ 500) ∧
    (handleError (.httpStatus 429 none) = .rateLimitError ((none : Option Nat).getD 60) ∧
      handleError (.httpStatus 400 none) = .apiError (some 400) ∧
      handleError (.httpStatus 500 none) = .apiError (some 500) ∧
      handleError .timeout = .apiError none ∧
      handleError .connError = .apiError none ∧
      errName (handleError (.httpStatus 400 none)) =
        errName (handleError (.httpStatus 500 none)) ∧
      startStep cfg0 initialStats
          (errEnv (.transport (handleError (.httpStatus 400 none)))) 0 =
        startStep cfg0 initialStats
          (errEnv (.transport (handleError (.httpStatus 500 none)))) 0) :=
  ⟨⟨by omega, by omega, by omega, by omega⟩,
    handleError_taxonomy none 400 500 initialStats 0 cfg0
      (by omega) (by omega) (by omega) (by omega)⟩

/-- Helper: a non-rate-limited error cycle sleeps the exponential backoff
keyed on `min(totalErrors + 1, 5)`. -/
theorem startStep_errEnv_backoff (cfg : MinerCfg) (s : Stats) (j : ℚ)
    (e : ThrownError) (hrl : rateLimitOf e = none) :
    startStep cfg s (errEnv e) j =
      ({ s with totalErrors := s.totalErrors + 1 },
        exponentialBackoff (min (s.totalErrors + 1) 5) 1000 30000 j) := by
  rw [startStep_errEnv, hrl]

/-- Helper: a rate-limited error cycle sleeps
`(retryAfter || 60) * 1000` milliseconds. -/
theorem startStep_errEnv_rateLimited (cfg : MinerCfg) (s : Stats) (j : ℚ)
    (r : Nat) :
    startStep cfg s (errEnv (.transport (.rateLimitError r))) j =
      ({ s with totalErrors := s.totalErrors + 1 },
        ((if r = 0 then 60 else r) : ℚ) * 1000) := by
  rw [startStep_errEnv]
  rfl

/-- Helper: an `ApiError`-aborted cycle (any status, timeout or network)
sleeps the exponential backoff. -/
theorem startStep_errEnv_apiError (cfg : MinerCfg) (s : Stats) (j : ℚ)
    (st : Option Nat) :
    startStep cfg s (errEnv (.transport (.apiError st))) j =
      ({ s with totalErrors := s.totalErrors + 1 },
        exponentialBackoff (min (s.totalErrors + 1) 5) 1000 30000 j) := by
  rw [startStep_errEnv]
  rfl

/-- C4 counterexample: the backoff exponent is keyed on the cumulative
`totalErrors`, not on consecutive errored cycles. On the trace
error–success–error, the second errored cycle has exactly one consecutive
error, so the claim's formula gives `1000·2^min(1,5) + 0 = 2000` ms, but
the code sleeps `1000·2^min(2,5) + 0 = 4000` ms because `totalErrors` is
2 and is never reset by the intervening successful cycle. -/
theorem backoff_counts_total_errors :
    (runLoop cfg0 initialStats
        [(serverFailureEnv, 0), (okEnv, 0), (serverFailureEnv, 0)]).2 =
      [2000, 10000, 4000] ∧
    specClaimBackoff 1 0 = 2000 ∧
    ((4000 : ℚ) ≠ 2000) := by
  refine ⟨?_, ?_, by norm_num⟩
  · simp only [runLoop]
    rw [show serverFailureEnv =
      errEnv (.transport (.apiError (some 500))) from rfl]
    rw [startStep_errEnv_apiError]
    simp only
    rw [startStep_okEnv _ _ _ (by norm_num [cfg0])]
    simp only
    rw [startStep_errEnv_apiError]
    simp only
    norm_num [initialStats, exponentialBackoff, cfg0, min_def]
  · norm_num [specClaimBackoff, min_def]

/-- C4 (amended): after a non-rate-limited error the loop sleeps
`min(1000·2^min(totalErrors, 5), 30000) + jitter` ms, where `totalErrors`
is the cumulative error count after this cycle's increment (not a count
of consecutive errored cycles) and the 30-second cap applies before the
jitter is added; three consecutive `ServerFailure` cycles from a fresh
start sleep `2000+j₁`, `4000+j₂`, `8000+j₃` ms, so the delay before the
fourth attempt strictly exceeds the delay before the second. -/
theorem backoff_formula_spec (cfg : MinerCfg) (s : Stats) (env : CycleEnv)
    (j j1 j2 j3 : ℚ) (e : ThrownError)
    (hj1 : 0 ≤ j1) (hj1' : j1 < 1000) (hj3 : 0 ≤ j3)
    (hesc : escapedOf (miningCycle cfg.maxRetries s env).2.1 = some e)
    (hrl : rateLimitOf e = none) :
    (startStep cfg s env j).2 =
      min (1000 * 2 ^ min (s.totalErrors + 1) 5) 30000 + j ∧
    (runLoop cfg initialStats
        [(serverFailureEnv, j1), (serverFailureEnv, j2), (serverFailureEnv, j3)]).2 =
      [2000 + j1, 4000 + j2, 8000 + j3] ∧
    2000 + j1 < 8000 + j3 := by
  obtain ⟨f1, _, _, _, _, _, _⟩ := miningCycle_facts cfg.maxRetries s env
  refine ⟨?_, ?_, by linarith⟩
  · rcases hmc : miningCycle cfg.maxRetries s env with ⟨s', res, trace⟩
    rw [hmc] at f1 hesc
    simp only [Prod.fst, Prod.snd] at f1 hesc
    unfold startStep
    rw [hmc]
    simp only [hesc, hrl]
    simp only [exponentialBackoff]
    have : s'.totalErrors = s.totalErrors := f1
    rw [this]
  · simp only [runLoop]
    rw [show serverFailureEnv =
      errEnv (.transport (.apiError (some 500))) from rfl]
    rw [startStep_errEnv_apiError]
    simp only
    rw [startStep_errEnv_apiError]
    simp only
    rw [startStep_errEnv_apiError]
    simp only
    norm_num [initialStats, exponentialBackoff, min_def]

/-- Witness for C4 at a `ServerFailure`-aborted cycle with zero jitter. -/
theorem backoff_formula_spec_witness :
    ((0 : ℚ) ≤ 0 ∧ (0 : ℚ) < 1000 ∧
      escapedOf (miningCycle cfg0.maxRetries initialStats serverFailureEnv).2.1 =
        some (.transport (.apiError (some 500))) ∧
      rateLimitOf (.transport (.apiError (some 500))) = none) ∧
    ((startStep cfg0 initialStats serverFailureEnv 0).2 =
        min (1000 * 2 ^ min (initialStats.totalErrors + 1) 5) 30000 + 0 ∧
      (runLoop cfg0 initialStats
          [(serverFailureEnv, 0), (serverFailureEnv, 0), (serverFailureEnv, 0)]).2 =
        [2000 + 0, 4000 + 0, 8000 + 0] ∧
      (2000 : ℚ) + 0 < 8000 + 0) :=
  ⟨⟨by norm_num, by norm_num, rfl, rfl⟩,
    backoff_formula_spec cfg0 initialStats serverFailureEnv 0 0 0 0
      (.transport (.apiError (some 500)))
      (by norm_num) (by norm_num) (by norm_num) rfl rfl⟩

/-- C5 counterexample: a `retry-after: 0` header is carried as
`RateLimited(0)`, but the loop sleeps the 60-second default (60000 ms)
rather than exactly 0 seconds, because JS `error.retryAfter || 60`
treats 0 as falsy. -/
theorem rateLimit_zero_retryAfter :
    handleError (.httpStatus 429 (some 0)) = .rateLimitError 0 ∧
    (startStep cfg0 initialStats
        (errEnv (.transport (.rateLimitError 0))) 0).2 = 60000 ∧
    ((60000 : ℚ) ≠ 0 * 1000) := by
  refine ⟨rfl, ?_, by norm_num⟩
  rw [startStep_errEnv_rateLimited]
  norm_num

/-- C5 (amended): on HTTP 429 the transport raises `RateLimitError`
carrying the parsed retry-after seconds (60 when the header is absent),
and a cycle escaping with `RateLimitError(r)` makes the loop sleep
`r * 1000` ms when `r ≠ 0` (the 60-second default when `r = 0`), while
incrementing the error counter by exactly one — no extra backoff beyond
the single rate-limit event. -/
theorem rateLimit_wait_spec (h : Option Nat) (cfg : MinerCfg) (s : Stats)
    (env : CycleEnv) (j : ℚ) (r : Nat)
    (hesc : escapedOf (miningCycle cfg.maxRetries s env).2.1 =
      some (.transport (.rateLimitError r))) :
    handleError (.httpStatus 429 h) = .rateLimitError (h.getD 60) ∧
    (startStep cfg s env j).2 = ((if r = 0 then 60 else r) : ℚ) * 1000 ∧
    (startStep cfg s env j).1.totalErrors = s.totalErrors + 1 := by
  obtain ⟨f1, _, _, _, _, _, _⟩ := miningCycle_facts cfg.maxRetries s env
  rcases hmc : miningCycle cfg.maxRetries s env with ⟨s', res, trace⟩
  rw [hmc] at f1 hesc
  simp only [Prod.fst, Prod.snd] at f1 hesc
  refine ⟨by simp [handleError], ?_, ?_⟩
  · unfold startStep
    rw [hmc]
    simp only [hesc, rateLimitOf]
  · unfold startStep
    rw [hmc]
    simp only [hesc, rateLimitOf]
    exact congrArg (· + 1) f1

/-- Witness for C5 at `RateLimited(5)`: the loop sleeps exactly 5000 ms
(5 simulated seconds). -/
theorem rateLimit_wait_spec_witness :
    (escapedOf (miningCycle cfg0.maxRetries initialStats
        (errEnv (.transport (.rateLimitError 5)))).2.1 =
      some (.transport (.rateLimitError 5))) ∧
    (handleError (.httpStatus 429 none) =
        .rateLimitError ((none : Option Nat).getD 60) ∧
      (startStep cfg0 initialStats (errEnv (.transport (.rateLimitError 5))) 0).2 =
        ((if (5 : Nat) = 0 then 60 else (5 : Nat)) : ℚ) * 1000 ∧
      (startStep cfg0 initialStats (errEnv (.transport (.rateLimitError 5))) 0).1.totalErrors =
        initialStats.totalErrors + 1) ∧
    (((if (5 : Nat) = 0 then 60 else (5 : Nat)) : ℚ) * 1000 = 5000) :=
  ⟨rfl,
    rateLimit_wait_spec none cfg0 initialStats
      (errEnv (.transport (.rateLimitError 5))) 0 5 rfl,
    by norm_num⟩

/-! ## Lemmas about base64 and the crypto wrappers -/

/-- Decoding inverts encoding on each six-bit value. -/
theorem b64Index_b64Char : ∀ n, n < 64 → b64Index (b64Char n) = n := by
  decide

/-- No alphabet character is the padding character. -/
theorem b64Char_ne_pad : ∀ n, n < 64 → b64Char n ≠ '=' := by
  decide

/-- Base64 decoding inverts base64 encoding on byte lists. -/
theorem b64Decode_b64Encode : ∀ bs : Bytes, ValidBytes bs →
    b64Decode (b64Encode bs) = bs := by
  intro bs
  induction bs using b64Encode.induct with
  | case1 =>
    intro _
    rfl
  | case2 a =>
    intro hv
    have ha : a < 256 := hv a (by simp)
    simp only [b64Encode, b64Decode, eq_self_iff_true, if_true]
    rw [b64Index_b64Char _ (by omega), b64Index_b64Char _ (by omega)]
    congr 1
    omega
  | case3 a b =>
    intro hv
    have ha : a < 256 := hv a (by simp)
    have hb : b < 256 := hv b (by simp)
    simp only [b64Encode, b64Decode]
    rw [if_neg (b64Char_ne_pad _ (by omega))]
    simp only [eq_self_iff_true, if_true]
    rw [b64Index_b64Char _ (by omega), b64Index_b64Char _ (by omega),
      b64Index_b64Char _ (by omega)]
    congr 1
    · omega
    · congr 1
      omega
  | case4 a b c rest ih =>
    intro hv
    have ha : a < 256 := hv a (by simp)
    have hb : b < 256 := hv b (by simp)
    have hc : c < 256 := hv c (by simp)
    have hrest : ValidBytes rest := by
      intro x hx
      exact hv x (by simp [hx])
    simp only [b64Encode, b64Decode]
    rw [if_neg (b64Char_ne_pad _ (by omega)), if_neg (b64Char_ne_pad _ (by omega))]
    rw [b64Index_b64Char _ (by omega), b64Index_b64Char _ (by omega),
      b64Index_b64Char _ (by omega), b64Index_b64Char _ (by omega)]
    rw [ih hrest]
    congr 1
    · omega
    · congr 1
      · omega
      · congr 1
        omega

/-- C9: for every keypair with a 64-byte secret key and a 32-byte public
key, exporting to base64 strings and loading them back yields the
byte-identical keypair. -/
theorem keypair_export_load_roundtrip (kp : Keypair)
    (h64 : kp.secretKey.length = 64) (h32 : kp.publicKey.length = 32)
    (hv1 : ValidBytes kp.secretKey) (hv2 : ValidBytes kp.publicKey) :
    loadKeypair (exportKeypair kp).privateKey (exportKeypair kp).publicKey =
      .ok kp := by
  unfold loadKeypair exportKeypair uint8ArrayToBase64 base64ToUint8Array
  simp only [String.data]
  rw [b64Decode_b64Encode kp.secretKey hv1, b64Decode_b64Encode kp.publicKey hv2]
  rw [if_neg (by omega), if_neg (by omega)]

/-- Witness for C9 at the concrete keypair `kpW`. -/
theorem keypair_export_load_roundtrip_witness :
    (kpW.secretKey.length = 64 ∧ kpW.publicKey.length = 32 ∧
      ValidBytes kpW.secretKey ∧ ValidBytes kpW.publicKey) ∧
    loadKeypair (exportKeypair kpW).privateKey (exportKeypair kpW).publicKey =
      .ok kpW :=
  ⟨⟨by decide, by decide, by decide, by decide⟩,
    keypair_export_load_roundtrip kpW (by decide) (by decide) (by decide) (by decide)⟩

/-- The modelled signature is always 64 bytes. -/
theorem naclRawSign_length (msg pk : Bytes) : (naclRawSign msg pk).length = 64 := by
  simp [naclRawSign]

/-- Flipping a bit of a natural number changes it. -/
theorem xor_two_pow_ne (x b : Nat) : x ^^^ 2 ^ b ≠ x := by
  intro h
  have h2 : 2 ^ b = 0 := by
    calc 2 ^ b = x ^^^ (x ^^^ 2 ^ b) := by
          rw [← Nat.xor_assoc, Nat.xor_self, Nat.zero_xor]
      _ = x ^^^ x := by rw [h]
      _ = 0 := Nat.xor_self x
  exact absurd h2 (Nat.two_pow_pos b).ne'

/-- Flipping any bit of a byte list within range changes the list. -/
theorem flipBit_ne (i b : Nat) (bs : Bytes) (hi : i < bs.length) :
    flipBit i b bs ≠ bs := by
  intro h
  have h1 := congrArg (fun l => l[i]?) h
  simp only [flipBit] at h1
  rw [List.getElem?_set_self (by simpa using hi), List.getElem?_eq_getElem hi] at h1
  have hD : bs.getD i 0 = bs[i] := by
    rw [List.getD_eq_getElem?_getD, List.getElem?_eq_getElem hi]
    rfl
  rw [hD] at h1
  exact xor_two_pow_ne bs[i] b (Option.some.inj h1)

/-- C7: for every valid keypair and every message, verification succeeds
on the signature `signMessage` produces, and flipping any single bit of
the signature makes `verifySignature` return false. -/
theorem sign_verify_flip_spec (kp : Keypair) (hv : kp.Valid) (msg : String)
    (i b : Nat) (hi : i < 64) (hb : b < 8) :
    verifySignature msg (signMessage msg kp.secretKey) kp.publicKey = true ∧
    verifySignature msg (flipBit i b (signMessage msg kp.secretKey))
      kp.publicKey = false := by
  obtain ⟨h64, h32, hpk, hbytes⟩ := hv
  have hb8 : b < 8 := hb
  constructor
  · unfold verifySignature naclVerifyDetached signMessage naclSignDetached
    rw [hpk]
    simp
  · unfold verifySignature naclVerifyDetached signMessage naclSignDetached
    rw [hpk]
    have hne := flipBit_ne i b
      (naclRawSign (utf8Encode msg) (kp.secretKey.drop 32))
      (by rw [naclRawSign_length]; exact hi)
    simp only [beq_eq_false_iff_ne, ne_eq]
    exact hne

/-- Witness for C7 at the concrete keypair `kpW`, message `"x"`, bit 0 of
byte 0. -/
theorem sign_verify_flip_spec_witness :
    (kpW.Valid ∧ (0 : Nat) < 64 ∧ (0 : Nat) < 8) ∧
    (verifySignature "x" (signMessage "x" kpW.secretKey) kpW.publicKey = true ∧
      verifySignature "x" (flipBit 0 0 (signMessage "x" kpW.secretKey))
        kpW.publicKey = false) :=
  ⟨⟨by decide, by decide, by decide⟩,
    sign_verify_flip_spec kpW (by decide) "x" 0 0 (by decide) (by decide)⟩

/-- C6 counterexample: for `register` the signed message is the
serialization of the full logical payload, which contains the field
`publicKey` — it differs from the claim's serialization that excludes
`publicKey`; consequently the register envelope has only three fields
(the payload's two plus `signature`), not the payload extended by two new
fields. -/
theorem register_envelope_deviates :
    jsonStringify (registerPayload kpW "8") ≠
      specClaimSignedMessage (registerPayload kpW "8") ∧
    fieldNames (registerRequest kpW "8") = ["publicKey", "solution", "signature"] := by
  constructor
  · decide
  · rfl

/-- C6 (amended): every state-changing operation signs
`JSON.stringify(payload)` (deterministic insertion order) and sends
`{...payload, publicKey, signature}`. For claim-work, submit-answer,
link-wallet and settle-reward the payload contains neither `publicKey`
nor `signature`, so the request is the payload extended with exactly
those two fields and the signature covers exactly the payload fields
excluding them, as the claim states; for `register`, whose logical
payload already contains `publicKey`, the envelope adds only `signature`
and the signature covers the serialization including `publicKey`.
Read-only operations send no signature. -/
theorem signed_envelope_spec (kp : Keypair)
    (solution huntId answer baseAddress : String) :
    (pickHuntRequest kp huntId =
        pickHuntPayload huntId ++
          [("publicKey", uint8ArrayToBase64 kp.publicKey),
           ("signature", uint8ArrayToBase64
             (signMessage (jsonStringify (pickHuntPayload huntId)) kp.secretKey))] ∧
      specClaimSignedMessage (pickHuntPayload huntId) =
        jsonStringify (pickHuntPayload huntId)) ∧
    (solveHuntRequest kp huntId answer =
        solveHuntPayload huntId answer ++
          [("publicKey", uint8ArrayToBase64 kp.publicKey),
           ("signature", uint8ArrayToBase64
             (signMessage (jsonStringify (solveHuntPayload huntId answer)) kp.secretKey))] ∧
      specClaimSignedMessage (solveHuntPayload huntId answer) =
        jsonStringify (solveHuntPayload huntId answer)) ∧
    (linkWalletRequest kp baseAddress =
        linkWalletPayload baseAddress ++
          [("publicKey", uint8ArrayToBase64 kp.publicKey),
           ("signature", uint8ArrayToBase64
             (signMessage (jsonStringify (linkWalletPayload baseAddress)) kp.secretKey))] ∧
      specClaimSignedMessage (linkWalletPayload baseAddress) =
        jsonStringify (linkWalletPayload baseAddress)) ∧
    (claimOnchainRequest kp =
        claimOnchainPayload ++
          [("publicKey", uint8ArrayToBase64 kp.publicKey),
           ("signature", uint8ArrayToBase64
             (signMessage (jsonStringify claimOnchainPayload) kp.secretKey))] ∧
      specClaimSignedMessage claimOnchainPayload =
        jsonStringify claimOnchainPayload) ∧
    (registerRequest kp solution =
        [("publicKey", uint8ArrayToBase64 kp.publicKey), ("solution", solution),
         ("signature", uint8ArrayToBase64
           (signMessage (jsonStringify (registerPayload kp solution)) kp.secretKey))]) ∧
    ("signature" ∉ fieldNames getHuntsRequest ∧
      "signature" ∉ fieldNames getChallengeRequest ∧
      "signature" ∉ fieldNames (getGasRequest kp) ∧
      "signature" ∉ fieldNames (getBalanceRequest kp)) := by
  refine ⟨⟨rfl, rfl⟩, ⟨rfl, rfl⟩, ⟨rfl, rfl⟩, ⟨rfl, rfl⟩, rfl, ?_, ?_, ?_, ?_⟩ <;>
    simp [getHuntsRequest, getChallengeRequest, getGasRequest, getBalanceRequest,
      fieldNames]

end Botcoin
